import Mathlib

/-!
# Eye censor geometry (`src/src/App.js`)

A shallow embedding of `drawEyeCensor` and of the part of `processImage` that calls it.

Modelling conventions.

* A keypoint coordinate is a finite JavaScript number; it is modelled as an exact rational
  (`ℚ`), and the arithmetic of the function (`+`, `-`, `/ 2`, `Math.min`, `Math.max`) is exact.
  Rounding and signed zeros are not modelled, so the theorems state the formulas the code
  evaluates; they do not bound the rounding error of the doubles.
* The values `Infinity`, `-Infinity` and `NaN` are modelled (`JSNum`), because `Math.min()`
  and `Math.max()` of an empty argument list return `Infinity` and `-Infinity`.
* `keypoints[idx]` on an index that is not a position of the array is `undefined`
  (`none`); reading `.x` or `.y` of `undefined` throws a `TypeError`.
* `Math.atan2` is a library function; it is a parameter of the model.  Theorems that need
  its value assume `RealAtan2`, which pins it to the argument of the complex number
  `x + y i`.
* The drawing surface is an external collaborator.  The model records the operations issued
  on it (`CanvasOp`), and `runOps` interprets them on a surface state whose transform algebra
  and raster are parameters (`SurfaceSem`).
-/

namespace EyeCensor

/-! ## Data model -/

/-- One landmark `{x, y}` of the detector output. -/
structure Keypoint where
  x : ℚ
  y : ℚ
deriving DecidableEq

/-- A JavaScript number: a finite value, `Infinity`, `-Infinity` or `NaN`. -/
inductive JSNum where
  | fin (q : ℚ)
  | posInf
  | negInf
  | nan
deriving DecidableEq

namespace JSNum

/-- JavaScript `a + b`.  On two finite numbers the sum is exact: the rounding of the double
result is not modelled. -/
def add : JSNum → JSNum → JSNum
  | fin a, fin b => fin (a + b)
  | nan, _ => nan
  | _, nan => nan
  | posInf, negInf => nan
  | negInf, posInf => nan
  | posInf, _ => posInf
  | _, posInf => posInf
  | negInf, _ => negInf
  | _, negInf => negInf

/-- JavaScript unary `-a`. -/
def neg : JSNum → JSNum
  | fin a => fin (-a)
  | posInf => negInf
  | negInf => posInf
  | nan => nan

/-- JavaScript `a - b`, exact on finite numbers like `add`. -/
def sub (a b : JSNum) : JSNum := add a (neg b)

/-- JavaScript `a / 2`, exact on a finite number. -/
def half : JSNum → JSNum
  | fin a => fin (a / 2)
  | posInf => posInf
  | negInf => negInf
  | nan => nan

/-- `Math.min(a, b)`. -/
def min2 : JSNum → JSNum → JSNum
  | nan, _ => nan
  | _, nan => nan
  | negInf, _ => negInf
  | _, negInf => negInf
  | posInf, b => b
  | a, posInf => a
  | fin a, fin b => fin (min a b)

/-- `Math.max(a, b)`. -/
def max2 : JSNum → JSNum → JSNum
  | nan, _ => nan
  | _, nan => nan
  | posInf, _ => posInf
  | _, posInf => posInf
  | negInf, b => b
  | a, negInf => a
  | fin a, fin b => fin (max a b)

end JSNum

/-- `Math.min(...xs)`: `Infinity` for no argument, `NaN` if an argument is `NaN`,
otherwise the smallest argument. -/
def mathMin (xs : List JSNum) : JSNum := xs.foldl JSNum.min2 JSNum.posInf

/-- `Math.max(...xs)`: `-Infinity` for no argument, `NaN` if an argument is `NaN`,
otherwise the largest argument. -/
def mathMax (xs : List JSNum) : JSNum := xs.foldl JSNum.max2 JSNum.negInf

/-- The exception a run of `drawEyeCensor` can throw. -/
inductive JSError where
  | typeError
deriving DecidableEq

/-- An operation issued on the 2D drawing context. -/
inductive CanvasOp (A : Type) where
  | save
  | translate (x y : JSNum)
  | rotate (angle : A)
  | setFillStyle (style : String)
  | fillRect (x y w h : JSNum)
  | restore
deriving DecidableEq

/-- What one call leaves behind: the context operations issued, in order, and the
exception thrown, if any. -/
structure Outcome (A : Type) where
  ops : List (CanvasOp A)
  error : Option JSError
deriving DecidableEq

/-! ## `drawEyeCensor` -/

/-- `points.map(p => p.x)` (or `p.y`) over the result of `indices.map(idx => keypoints[idx])`:
throws as soon as a point is `undefined`. -/
def coords (f : Keypoint → ℚ) : List (Option Keypoint) → Except JSError (List JSNum)
  | [] => .ok []
  | none :: _ => .error .typeError
  | some p :: rest =>
    match coords f rest with
    | .ok cs => .ok (JSNum.fin (f p) :: cs)
    | .error e => .error e

/-- The local values of `drawEyeCensor` (lines 92 to 127). -/
structure Geometry (A : Type) where
  rightEyeCenter : JSNum × JSNum
  leftEyeCenter : JSNum × JSNum
  angle : A
  minX : JSNum
  maxX : JSNum
  minY : JSNum
  maxY : JSNum
  barWidth : JSNum
  barHeight : JSNum
  centerX : JSNum
  centerY : JSNum

/-- Lines 92 to 127 of `drawEyeCensor`, from the four coordinate arrays. -/
def geometry {A : Type} (atan2 : JSNum → JSNum → A)
    (rightXCoords rightYCoords leftXCoords leftYCoords : List JSNum) : Geometry A :=
  let rightEyeCenter : JSNum × JSNum :=
    ((JSNum.add (mathMin rightXCoords) (mathMax rightXCoords)).half,
     (JSNum.add (mathMin rightYCoords) (mathMax rightYCoords)).half)
  let leftEyeCenter : JSNum × JSNum :=
    ((JSNum.add (mathMin leftXCoords) (mathMax leftXCoords)).half,
     (JSNum.add (mathMin leftYCoords) (mathMax leftYCoords)).half)
  let angle := atan2 (JSNum.sub leftEyeCenter.2 rightEyeCenter.2)
    (JSNum.sub leftEyeCenter.1 rightEyeCenter.1)
  let allXCoords := rightXCoords ++ leftXCoords
  let allYCoords := rightYCoords ++ leftYCoords
  let minX := mathMin allXCoords
  let maxX := mathMax allXCoords
  let minY := mathMin allYCoords
  let maxY := mathMax allYCoords
  let barWidth := JSNum.add (JSNum.sub maxX minX) (JSNum.fin 40)
  let barHeight := JSNum.add
    (JSNum.max2 (JSNum.sub (mathMax rightYCoords) (mathMin rightYCoords))
      (JSNum.sub (mathMax leftYCoords) (mathMin leftYCoords)))
    (JSNum.fin 20)
  let centerX := (JSNum.add minX maxX).half
  let centerY := (JSNum.add minY maxY).half
  { rightEyeCenter, leftEyeCenter, angle, minX, maxX, minY, maxY,
    barWidth, barHeight, centerX, centerY }

/-- Lines 129 to 141 of `drawEyeCensor`: the operations issued on `ctx`. -/
def render {A : Type} (g : Geometry A) : List (CanvasOp A) :=
  [ .save,
    .translate g.centerX g.centerY,
    .rotate g.angle,
    .setFillStyle "black",
    .fillRect g.barWidth.neg.half g.barHeight.neg.half g.barWidth g.barHeight,
    .restore ]

/-- Lines 83 to 90 of `drawEyeCensor`: the four coordinate arrays, or the exception. -/
def eyeCoords (keypoints : List Keypoint) (rightEyeIndices leftEyeIndices : List Nat) :
    Except JSError (List JSNum × List JSNum × List JSNum × List JSNum) :=
  let rightEyePoints := rightEyeIndices.map (fun idx => keypoints[idx]?)
  let leftEyePoints := leftEyeIndices.map (fun idx => keypoints[idx]?)
  match coords Keypoint.x rightEyePoints with
  | .error e => .error e
  | .ok rightXCoords =>
    match coords Keypoint.y rightEyePoints with
    | .error e => .error e
    | .ok rightYCoords =>
      match coords Keypoint.x leftEyePoints with
      | .error e => .error e
      | .ok leftXCoords =>
        match coords Keypoint.y leftEyePoints with
        | .error e => .error e
        | .ok leftYCoords => .ok (rightXCoords, rightYCoords, leftXCoords, leftYCoords)

/-- Lines 83 to 127 of `drawEyeCensor`: the local values, or the exception of lines 87
to 90. -/
def censorGeometry {A : Type} (atan2 : JSNum → JSNum → A) (keypoints : List Keypoint)
    (rightEyeIndices leftEyeIndices : List Nat) : Except JSError (Geometry A) :=
  match eyeCoords keypoints rightEyeIndices leftEyeIndices with
  | .error e => .error e
  | .ok (rightXCoords, rightYCoords, leftXCoords, leftYCoords) =>
    .ok (geometry atan2 rightXCoords rightYCoords leftXCoords leftYCoords)

/-- The function `drawEyeCensor(ctx, keypoints, rightEyeIndices, leftEyeIndices)`.  The
exception of lines 87 to 90 is thrown before the first call on `ctx` (line 130), so a
failing run has issued no operation. -/
def drawEyeCensor {A : Type} (atan2 : JSNum → JSNum → A) (keypoints : List Keypoint)
    (rightEyeIndices leftEyeIndices : List Nat) : Outcome A :=
  match censorGeometry atan2 keypoints rightEyeIndices leftEyeIndices with
  | .error e => { ops := [], error := some e }
  | .ok g => { ops := render g, error := none }

/-! ## `processImage` -/

/-- The constant `rightEyeIndices` of `processImage` (line 70). -/
def rightEyeIndices : List Nat := [33, 7, 163, 144, 145, 153, 154, 155, 133]

/-- The constant `leftEyeIndices` of `processImage` (line 71). -/
def leftEyeIndices : List Nat := [263, 249, 390, 373, 374, 380, 381, 382, 362]

/-- Lines 65 to 75 of `processImage`: the censor call on the first detected face, and
nothing when no face was detected.  A face is its keypoint array. -/
def processImage {A : Type} (atan2 : JSNum → JSNum → A) (faces : List (List Keypoint)) :
    Outcome A :=
  match faces with
  | [] => { ops := [], error := none }
  | face :: _ => drawEyeCensor atan2 face rightEyeIndices leftEyeIndices

/-! ## The drawing surface -/

/-- The part of the drawing state that `save` pushes and `restore` pops. -/
structure DrawState (T : Type) where
  transform : T
  fillStyle : String

/-- A 2D drawing context: current drawing state, stack of saved states, raster. -/
structure Ctx (T P : Type) where
  cur : DrawState T
  stack : List (DrawState T)
  pixels : P

/-- The surface's own semantics of transforms and filling. -/
structure SurfaceSem (A T P : Type) where
  translate : JSNum → JSNum → T → T
  rotate : A → T → T
  fill : DrawState T → JSNum → JSNum → JSNum → JSNum → P → P

/-- One context operation.  `restore` on an empty stack does nothing. -/
def applyOp {A T P : Type} (sem : SurfaceSem A T P) (c : Ctx T P) : CanvasOp A → Ctx T P
  | .save => { c with stack := c.cur :: c.stack }
  | .translate x y => { c with cur := { c.cur with transform := sem.translate x y c.cur.transform } }
  | .rotate a => { c with cur := { c.cur with transform := sem.rotate a c.cur.transform } }
  | .setFillStyle s => { c with cur := { c.cur with fillStyle := s } }
  | .fillRect x y w h => { c with pixels := sem.fill c.cur x y w h c.pixels }
  | .restore =>
    match c.stack with
    | [] => c
    | s :: rest => { c with cur := s, stack := rest }

/-- Operations in sequence. -/
def runOps {A T P : Type} (sem : SurfaceSem A T P) (ops : List (CanvasOp A)) (c : Ctx T P) :
    Ctx T P :=
  ops.foldl (applyOp sem) c

/-! ## Specification vocabulary -/

/-- The eye region of the specification: the keypoints selected by an index set. -/
def eyeRegion (keypoints : List Keypoint) (indices : List Nat) : List Keypoint :=
  indices.filterMap (fun idx => keypoints[idx]?)

/-- The axis-aligned bounding box `[x0, x1] × [y0, y1]` of a point list, in the words of the
specification: the least and greatest `x` and the least and greatest `y` over the points. -/
def IsBBox (pts : List Keypoint) (x0 x1 y0 y1 : ℚ) : Prop :=
  IsLeast {v | ∃ p ∈ pts, p.x = v} x0 ∧ IsGreatest {v | ∃ p ∈ pts, p.x = v} x1 ∧
  IsLeast {v | ∃ p ∈ pts, p.y = v} y0 ∧ IsGreatest {v | ∃ p ∈ pts, p.y = v} y1

/-- `Math.atan2` on finite arguments, as a real number: the argument of `x + y i`, in
`(-π, π]`, and `0` at the origin. -/
def RealAtan2 (atan2 : JSNum → JSNum → ℝ) : Prop :=
  ∀ y x : ℚ, atan2 (.fin y) (.fin x) = Complex.arg ⟨(x : ℝ), (y : ℝ)⟩

/-- A point in the local frame of a rectangle centred at `(cx, cy)` and rotated by the angle
with cosine `c` and sine `s`: subtract the centre, then rotate by minus the angle. -/
def toLocal {K : Type} [Field K] (c s cx cy px py : K) : K × K :=
  ((px - cx) * c + (py - cy) * s, -((px - cx) * s) + (py - cy) * c)

/-! ## Helpers and synthetic inputs -/

/-- Whether an operation fills a rectangle. -/
def CanvasOp.isFillRect {A : Type} : CanvasOp A → Bool
  | .fillRect _ _ _ _ => true
  | _ => false

/-- A 478-point detector output given by its keypoint function. -/
def faceOf (f : Nat → Keypoint) : List Keypoint := (List.range 478).map f

/-- A level face: right eye spanning `[90,110] × [95,105]`, left eye spanning
`[190,210] × [95,105]`. -/
def symmetricFace : List Keypoint := faceOf fun i =>
  if i = 33 then ⟨90, 100⟩ else if i = 133 then ⟨110, 100⟩
  else if i = 7 then ⟨100, 95⟩ else if i = 145 then ⟨100, 105⟩
  else if i ∈ rightEyeIndices then ⟨100, 100⟩
  else if i = 263 then ⟨210, 100⟩ else if i = 362 then ⟨190, 100⟩
  else if i = 249 then ⟨200, 95⟩ else if i = 374 then ⟨200, 105⟩
  else if i ∈ leftEyeIndices then ⟨200, 100⟩
  else ⟨150, 150⟩

/-- A face whose left eye is taller than its right eye: right eye spanning
`[90,110] × [95,105]`, left eye spanning `[190,210] × [95,125]`. -/
def unevenFace : List Keypoint := faceOf fun i =>
  if i = 33 then ⟨90, 100⟩ else if i = 133 then ⟨110, 100⟩
  else if i = 7 then ⟨100, 95⟩ else if i = 145 then ⟨100, 105⟩
  else if i ∈ rightEyeIndices then ⟨100, 100⟩
  else if i = 263 then ⟨210, 110⟩ else if i = 362 then ⟨190, 110⟩
  else if i = 249 then ⟨200, 95⟩ else if i = 374 then ⟨200, 125⟩
  else if i ∈ leftEyeIndices then ⟨200, 110⟩
  else ⟨150, 150⟩

/-- A face tilted by the angle of the direction `(4, 3)`: the right eye runs from its outer
corner `(260,270)` to its inner corner `(340,330)`, the left eye from its inner corner
`(460,420)` to its outer corner `(540,480)`; the other contour points sit at the eye
centres `(300,300)` and `(500,450)`. -/
def tiltedFace : List Keypoint := faceOf fun i =>
  if i = 33 then ⟨260, 270⟩ else if i = 133 then ⟨340, 330⟩
  else if i ∈ rightEyeIndices then ⟨300, 300⟩
  else if i = 362 then ⟨460, 420⟩ else if i = 263 then ⟨540, 480⟩
  else if i ∈ leftEyeIndices then ⟨500, 450⟩
  else ⟨400, 500⟩

/-- A detector output that is too short: 100 keypoints. -/
def shortFace : List Keypoint := List.replicate 100 ⟨0, 0⟩

/-- A two-argument function on finite numbers, extended to all JavaScript numbers by a
default value. -/
def liftFinite {A : Type} (f : ℚ → ℚ → A) (d : A) : JSNum → JSNum → A
  | .fin y, .fin x => f y x
  | _, _ => d

/-! ## Auxiliary lemmas -/

theorem coords_map_some (f : Keypoint → ℚ) (pts : List Keypoint) :
    coords f (pts.map some) = .ok (pts.map (fun p => JSNum.fin (f p))) := by
  induction pts with
  | nil => rfl
  | cons p rest ih => simp [coords, ih]

theorem coords_error_of_mem_none (f : Keypoint → ℚ) (l : List (Option Keypoint))
    (h : none ∈ l) : coords f l = .error .typeError := by
  induction l with
  | nil => simp at h
  | cons a rest ih =>
    cases a with
    | none => rfl
    | some p =>
      have h2 : none ∈ rest := by simpa using h
      simp [coords, ih h2]

theorem map_getElem?_eq_eyeRegion (kp : List Keypoint) (idxs : List Nat)
    (h : ∀ i ∈ idxs, i < kp.length) :
    idxs.map (fun idx => kp[idx]?) = (eyeRegion kp idxs).map some := by
  induction idxs with
  | nil => rfl
  | cons i rest ih =>
    have hi : i < kp.length := h i (by simp)
    have hr : ∀ j ∈ rest, j < kp.length := fun j hj => h j (by simp [hj])
    have ih2 := ih hr
    simp only [eyeRegion] at ih2 ⊢
    simp [List.filterMap_cons, List.getElem?_eq_getElem hi, ih2]

theorem eyeRegion_length (kp : List Keypoint) (idxs : List Nat)
    (h : ∀ i ∈ idxs, i < kp.length) : (eyeRegion kp idxs).length = idxs.length := by
  have := congrArg List.length (map_getElem?_eq_eyeRegion kp idxs h)
  simpa using this.symm

theorem foldl_min2_fin (a : ℚ) (qs : List ℚ) :
    (qs.map JSNum.fin).foldl JSNum.min2 (.fin a) = .fin (qs.foldl min a) := by
  induction qs generalizing a with
  | nil => rfl
  | cons q rest ih => simp [List.foldl, JSNum.min2, ih]

theorem foldl_max2_fin (a : ℚ) (qs : List ℚ) :
    (qs.map JSNum.fin).foldl JSNum.max2 (.fin a) = .fin (qs.foldl max a) := by
  induction qs generalizing a with
  | nil => rfl
  | cons q rest ih => simp [List.foldl, JSNum.max2, ih]

theorem foldl_min_le (a : ℚ) (qs : List ℚ) :
    qs.foldl min a ≤ a ∧ ∀ v ∈ qs, qs.foldl min a ≤ v := by
  induction qs generalizing a with
  | nil => simp
  | cons q rest ih =>
    obtain ⟨h1, h2⟩ := ih (min a q)
    refine ⟨le_trans h1 (min_le_left _ _), ?_⟩
    intro v hv
    rcases List.mem_cons.mp hv with rfl | hv
    · exact le_trans h1 (min_le_right _ _)
    · exact h2 v hv

theorem foldl_min_mem (a : ℚ) (qs : List ℚ) : qs.foldl min a = a ∨ qs.foldl min a ∈ qs := by
  induction qs generalizing a with
  | nil => simp
  | cons q rest ih =>
    rw [List.foldl_cons]
    rcases ih (min a q) with h | h
    · rw [h]
      rcases min_choice a q with h2 | h2
      · left; exact h2
      · right; rw [h2]; exact List.mem_cons_self _ _
    · right; exact List.mem_cons_of_mem _ h

theorem le_foldl_max (a : ℚ) (qs : List ℚ) :
    a ≤ qs.foldl max a ∧ ∀ v ∈ qs, v ≤ qs.foldl max a := by
  induction qs generalizing a with
  | nil => simp
  | cons q rest ih =>
    obtain ⟨h1, h2⟩ := ih (max a q)
    refine ⟨le_trans (le_max_left _ _) h1, ?_⟩
    intro v hv
    rcases List.mem_cons.mp hv with rfl | hv
    · exact le_trans (le_max_right _ _) h1
    · exact h2 v hv

theorem foldl_max_mem (a : ℚ) (qs : List ℚ) : qs.foldl max a = a ∨ qs.foldl max a ∈ qs := by
  induction qs generalizing a with
  | nil => simp
  | cons q rest ih =>
    rw [List.foldl_cons]
    rcases ih (max a q) with h | h
    · rw [h]
      rcases max_choice a q with h2 | h2
      · left; exact h2
      · right; rw [h2]; exact List.mem_cons_self _ _
    · right; exact List.mem_cons_of_mem _ h

/-- `Math.min` of a non-empty list of finite numbers is its least element. -/
theorem mathMin_fin (qs : List ℚ) (m : ℚ) (h : IsLeast {v | v ∈ qs} m) :
    mathMin (qs.map JSNum.fin) = .fin m := by
  obtain ⟨hm, hle⟩ := h
  cases qs with
  | nil => simp at hm
  | cons q rest =>
    have e : mathMin ((q :: rest).map JSNum.fin) = .fin (rest.foldl min q) := by
      simp [mathMin, List.foldl, JSNum.min2, foldl_min2_fin]
    rw [e]
    congr 1
    apply le_antisymm
    · rcases List.mem_cons.mp hm with rfl | hm2
      · exact (foldl_min_le _ rest).1
      · exact (foldl_min_le q rest).2 m hm2
    · apply hle
      rcases foldl_min_mem q rest with h | h
      · simp [h]
      · simp [h]

/-- `Math.max` of a non-empty list of finite numbers is its greatest element. -/
theorem mathMax_fin (qs : List ℚ) (m : ℚ) (h : IsGreatest {v | v ∈ qs} m) :
    mathMax (qs.map JSNum.fin) = .fin m := by
  obtain ⟨hm, hle⟩ := h
  cases qs with
  | nil => simp at hm
  | cons q rest =>
    have e : mathMax ((q :: rest).map JSNum.fin) = .fin (rest.foldl max q) := by
      simp [mathMax, List.foldl, JSNum.max2, foldl_max2_fin]
    rw [e]
    congr 1
    apply le_antisymm
    · apply hle
      rcases foldl_max_mem q rest with h | h
      · simp [h]
      · simp [h]
    · rcases List.mem_cons.mp hm with rfl | hm2
      · exact (le_foldl_max _ rest).1
      · exact (le_foldl_max q rest).2 m hm2

theorem mathMin_coords (f : Keypoint → ℚ) (pts : List Keypoint) (m : ℚ)
    (h : IsLeast {v | ∃ p ∈ pts, f p = v} m) :
    mathMin (pts.map (fun p => JSNum.fin (f p))) = .fin m := by
  have e : pts.map (fun p => JSNum.fin (f p)) = (pts.map f).map JSNum.fin := by simp
  rw [e]
  apply mathMin_fin
  simpa [IsLeast, lowerBounds] using h

theorem mathMax_coords (f : Keypoint → ℚ) (pts : List Keypoint) (m : ℚ)
    (h : IsGreatest {v | ∃ p ∈ pts, f p = v} m) :
    mathMax (pts.map (fun p => JSNum.fin (f p))) = .fin m := by
  have e : pts.map (fun p => JSNum.fin (f p)) = (pts.map f).map JSNum.fin := by simp
  rw [e]
  apply mathMax_fin
  simpa [IsGreatest, upperBounds] using h

theorem coordSet_append (f : Keypoint → ℚ) (r l : List Keypoint) :
    {v | ∃ p ∈ r ++ l, f p = v} = {v | ∃ p ∈ r, f p = v} ∪ {v | ∃ p ∈ l, f p = v} := by
  ext v
  simp only [List.mem_append, Set.mem_setOf_eq, Set.mem_union]
  constructor
  · rintro ⟨p, hp | hp, rfl⟩
    · exact Or.inl ⟨p, hp, rfl⟩
    · exact Or.inr ⟨p, hp, rfl⟩
  · rintro (⟨p, hp, rfl⟩ | ⟨p, hp, rfl⟩)
    · exact ⟨p, Or.inl hp, rfl⟩
    · exact ⟨p, Or.inr hp, rfl⟩

/-- The bounding box of two point lists together. -/
theorem IsBBox.append {r l : List Keypoint} {rx0 rx1 ry0 ry1 lx0 lx1 ly0 ly1 : ℚ}
    (hr : IsBBox r rx0 rx1 ry0 ry1) (hl : IsBBox l lx0 lx1 ly0 ly1) :
    IsBBox (r ++ l) (min rx0 lx0) (max rx1 lx1) (min ry0 ly0) (max ry1 ly1) := by
  obtain ⟨r1, r2, r3, r4⟩ := hr
  obtain ⟨l1, l2, l3, l4⟩ := hl
  unfold IsBBox
  rw [coordSet_append, coordSet_append]
  exact ⟨r1.union l1, r2.union l2, r3.union l3, r4.union l4⟩

/-- A bounding box is determined by its points. -/
theorem IsBBox.unique {pts : List Keypoint} {a b c d a2 b2 c2 d2 : ℚ}
    (h : IsBBox pts a b c d) (h2 : IsBBox pts a2 b2 c2 d2) :
    a = a2 ∧ b = b2 ∧ c = c2 ∧ d = d2 :=
  ⟨h.1.unique h2.1, h.2.1.unique h2.2.1, h.2.2.1.unique h2.2.2.1, h.2.2.2.unique h2.2.2.2⟩

theorem exists_isLeast_coord (f : Keypoint → ℚ) (pts : List Keypoint) (h : pts ≠ []) :
    ∃ m, IsLeast {v | ∃ p ∈ pts, f p = v} m := by
  cases pts with
  | nil => exact absurd rfl h
  | cons q rest =>
    refine ⟨(rest.map f).foldl min (f q), ?_, ?_⟩
    · rcases foldl_min_mem (f q) (rest.map f) with e | e
      · exact ⟨q, by simp, e.symm⟩
      · obtain ⟨p, hp, hpe⟩ := List.mem_map.mp e
        exact ⟨p, by simp [hp], hpe⟩
    · rintro v ⟨p, hp, rfl⟩
      rcases List.mem_cons.mp hp with rfl | hp
      · exact (foldl_min_le _ _).1
      · exact (foldl_min_le _ _).2 _ (List.mem_map.mpr ⟨p, hp, rfl⟩)

theorem exists_isGreatest_coord (f : Keypoint → ℚ) (pts : List Keypoint) (h : pts ≠ []) :
    ∃ m, IsGreatest {v | ∃ p ∈ pts, f p = v} m := by
  cases pts with
  | nil => exact absurd rfl h
  | cons q rest =>
    refine ⟨(rest.map f).foldl max (f q), ?_, ?_⟩
    · rcases foldl_max_mem (f q) (rest.map f) with e | e
      · exact ⟨q, by simp, e.symm⟩
      · obtain ⟨p, hp, hpe⟩ := List.mem_map.mp e
        exact ⟨p, by simp [hp], hpe⟩
    · rintro v ⟨p, hp, rfl⟩
      rcases List.mem_cons.mp hp with rfl | hp
      · exact (le_foldl_max _ _).1
      · exact (le_foldl_max _ _).2 _ (List.mem_map.mpr ⟨p, hp, rfl⟩)

/-- A non-empty point list has a bounding box. -/
theorem exists_isBBox (pts : List Keypoint) (h : pts ≠ []) :
    ∃ a b c d, IsBBox pts a b c d := by
  obtain ⟨a, ha⟩ := exists_isLeast_coord Keypoint.x pts h
  obtain ⟨b, hb⟩ := exists_isGreatest_coord Keypoint.x pts h
  obtain ⟨c, hc⟩ := exists_isLeast_coord Keypoint.y pts h
  obtain ⟨d, hd⟩ := exists_isGreatest_coord Keypoint.y pts h
  exact ⟨a, b, c, d, ha, hb, hc, hd⟩

/-- Every point lies in its bounding box, and the box is not inverted. -/
theorem IsBBox.bounds {pts : List Keypoint} {a b c d : ℚ} (h : IsBBox pts a b c d) :
    a ≤ b ∧ c ≤ d ∧ ∀ p ∈ pts, a ≤ p.x ∧ p.x ≤ b ∧ c ≤ p.y ∧ p.y ≤ d := by
  obtain ⟨h1, h2, h3, h4⟩ := h
  refine ⟨h1.2 h2.1, h3.2 h4.1, ?_⟩
  intro p hp
  exact ⟨h1.2 ⟨p, hp, rfl⟩, h2.2 ⟨p, hp, rfl⟩, h3.2 ⟨p, hp, rfl⟩, h4.2 ⟨p, hp, rfl⟩⟩

/-- The local values of `drawEyeCensor` in terms of the two eyes' bounding boxes. -/
theorem geometry_of_bbox {A : Type} (atan2 : JSNum → JSNum → A) (r l : List Keypoint)
    {rx0 rx1 ry0 ry1 lx0 lx1 ly0 ly1 : ℚ}
    (hr : IsBBox r rx0 rx1 ry0 ry1) (hl : IsBBox l lx0 lx1 ly0 ly1) :
    geometry atan2 (r.map (fun p => JSNum.fin p.x)) (r.map (fun p => JSNum.fin p.y))
        (l.map (fun p => JSNum.fin p.x)) (l.map (fun p => JSNum.fin p.y)) =
      { rightEyeCenter := (.fin ((rx0 + rx1) / 2), .fin ((ry0 + ry1) / 2))
        leftEyeCenter := (.fin ((lx0 + lx1) / 2), .fin ((ly0 + ly1) / 2))
        angle := atan2 (.fin ((ly0 + ly1) / 2 - (ry0 + ry1) / 2))
          (.fin ((lx0 + lx1) / 2 - (rx0 + rx1) / 2))
        minX := .fin (min rx0 lx0)
        maxX := .fin (max rx1 lx1)
        minY := .fin (min ry0 ly0)
        maxY := .fin (max ry1 ly1)
        barWidth := .fin (max rx1 lx1 - min rx0 lx0 + 40)
        barHeight := .fin (max (ry1 - ry0) (ly1 - ly0) + 20)
        centerX := .fin ((min rx0 lx0 + max rx1 lx1) / 2)
        centerY := .fin ((min ry0 ly0 + max ry1 ly1) / 2) } := by
  have ha := hr.append hl
  have e1 := mathMin_coords Keypoint.x r rx0 hr.1
  have e2 := mathMax_coords Keypoint.x r rx1 hr.2.1
  have e3 := mathMin_coords Keypoint.y r ry0 hr.2.2.1
  have e4 := mathMax_coords Keypoint.y r ry1 hr.2.2.2
  have f1 := mathMin_coords Keypoint.x l lx0 hl.1
  have f2 := mathMax_coords Keypoint.x l lx1 hl.2.1
  have f3 := mathMin_coords Keypoint.y l ly0 hl.2.2.1
  have f4 := mathMax_coords Keypoint.y l ly1 hl.2.2.2
  have g1 := mathMin_coords Keypoint.x (r ++ l) _ ha.1
  have g2 := mathMax_coords Keypoint.x (r ++ l) _ ha.2.1
  have g3 := mathMin_coords Keypoint.y (r ++ l) _ ha.2.2.1
  have g4 := mathMax_coords Keypoint.y (r ++ l) _ ha.2.2.2
  rw [List.map_append] at g1 g2 g3 g4
  simp only [geometry, e1, e2, e3, e4, f1, f2, f3, f4, g1, g2, g3, g4, JSNum.add, JSNum.sub,
    JSNum.neg, JSNum.half, JSNum.max2, ← sub_eq_add_neg]

/-- On a keypoint array in which all indices are positions, no exception is thrown and the
local values are those of the two eye regions. -/
theorem censorGeometry_valid {A : Type} (atan2 : JSNum → JSNum → A) (kp : List Keypoint)
    (ri li : List Nat) (h : ∀ i ∈ ri ++ li, i < kp.length) :
    censorGeometry atan2 kp ri li =
      .ok (geometry atan2 ((eyeRegion kp ri).map (fun p => JSNum.fin p.x))
        ((eyeRegion kp ri).map (fun p => JSNum.fin p.y))
        ((eyeRegion kp li).map (fun p => JSNum.fin p.x))
        ((eyeRegion kp li).map (fun p => JSNum.fin p.y))) := by
  have hr := map_getElem?_eq_eyeRegion kp ri (fun i hi => h i (by simp [hi]))
  have hl := map_getElem?_eq_eyeRegion kp li (fun i hi => h i (by simp [hi]))
  simp only [censorGeometry, eyeCoords, hr, hl, coords_map_some]

theorem eyeRegion_ne_nil (kp : List Keypoint) (idxs : List Nat)
    (h : ∀ i ∈ idxs, i < kp.length) (hne : idxs ≠ []) : eyeRegion kp idxs ≠ [] := by
  intro e
  have := eyeRegion_length kp idxs h
  rw [e] at this
  exact hne (List.length_eq_zero.mp this.symm)

theorem eyeCoords_error (kp : List Keypoint) (ri li : List Nat)
    (h : ∃ i ∈ ri ++ li, kp.length ≤ i) : eyeCoords kp ri li = .error .typeError := by
  obtain ⟨i, hi, hlen⟩ := h
  have hnone : kp[i]? = none := List.getElem?_eq_none hlen
  have hcase : none ∈ ri.map (fun idx => kp[idx]?) ∨ none ∈ li.map (fun idx => kp[idx]?) := by
    rcases List.mem_append.mp hi with h1 | h1
    · exact Or.inl (List.mem_map.mpr ⟨i, h1, hnone⟩)
    · exact Or.inr (List.mem_map.mpr ⟨i, h1, hnone⟩)
  rcases hcase with h1 | h1
  · simp only [eyeCoords, coords_error_of_mem_none _ _ h1]
  · simp only [eyeCoords, coords_error_of_mem_none _ _ h1]
    cases coords Keypoint.x (ri.map (fun idx => kp[idx]?)) with
    | error e => cases e; rfl
    | ok a =>
      cases coords Keypoint.y (ri.map (fun idx => kp[idx]?)) with
      | error e => cases e; rfl
      | ok b => rfl

/-- The local values on a valid keypoint array, in terms of the two eyes' bounding boxes. -/
theorem censorGeometry_of_bbox {A : Type} (atan2 : JSNum → JSNum → A) (kp : List Keypoint)
    (ri li : List Nat) (h : ∀ i ∈ ri ++ li, i < kp.length)
    {rx0 rx1 ry0 ry1 lx0 lx1 ly0 ly1 : ℚ}
    (hr : IsBBox (eyeRegion kp ri) rx0 rx1 ry0 ry1)
    (hl : IsBBox (eyeRegion kp li) lx0 lx1 ly0 ly1) :
    censorGeometry atan2 kp ri li = .ok
      { rightEyeCenter := (.fin ((rx0 + rx1) / 2), .fin ((ry0 + ry1) / 2))
        leftEyeCenter := (.fin ((lx0 + lx1) / 2), .fin ((ly0 + ly1) / 2))
        angle := atan2 (.fin ((ly0 + ly1) / 2 - (ry0 + ry1) / 2))
          (.fin ((lx0 + lx1) / 2 - (rx0 + rx1) / 2))
        minX := .fin (min rx0 lx0)
        maxX := .fin (max rx1 lx1)
        minY := .fin (min ry0 ly0)
        maxY := .fin (max ry1 ly1)
        barWidth := .fin (max rx1 lx1 - min rx0 lx0 + 40)
        barHeight := .fin (max (ry1 - ry0) (ly1 - ly0) + 20)
        centerX := .fin ((min rx0 lx0 + max rx1 lx1) / 2)
        centerY := .fin ((min ry0 ly0 + max ry1 ly1) / 2) } := by
  rw [censorGeometry_valid atan2 kp ri li h, geometry_of_bbox atan2 _ _ hr hl]

theorem drawEyeCensor_of_ok {A : Type} (atan2 : JSNum → JSNum → A) (kp : List Keypoint)
    (ri li : List Nat) (g : Geometry A) (h : censorGeometry atan2 kp ri li = .ok g) :
    drawEyeCensor atan2 kp ri li = { ops := render g, error := none } := by
  simp only [drawEyeCensor, h]

/-- Both eye regions of a valid keypoint array have a bounding box. -/
theorem exists_eye_bboxes (kp : List Keypoint)
    (h : ∀ i ∈ rightEyeIndices ++ leftEyeIndices, i < kp.length) :
    ∃ rx0 rx1 ry0 ry1 lx0 lx1 ly0 ly1 : ℚ,
      IsBBox (eyeRegion kp rightEyeIndices) rx0 rx1 ry0 ry1 ∧
      IsBBox (eyeRegion kp leftEyeIndices) lx0 lx1 ly0 ly1 := by
  have hr : ∀ i ∈ rightEyeIndices, i < kp.length := fun i hi => h i (by simp [hi])
  have hl : ∀ i ∈ leftEyeIndices, i < kp.length := fun i hi => h i (by simp [hi])
  obtain ⟨a, b, c, d, h1⟩ :=
    exists_isBBox _ (eyeRegion_ne_nil kp rightEyeIndices hr (by simp [rightEyeIndices]))
  obtain ⟨a2, b2, c2, d2, h2⟩ :=
    exists_isBBox _ (eyeRegion_ne_nil kp leftEyeIndices hl (by simp [leftEyeIndices]))
  exact ⟨a, b, c, d, a2, b2, c2, d2, h1, h2⟩

/-- A bounding box from explicit bounds and points attaining them. -/
theorem isBBox_of_bounds (pts : List Keypoint) (a b c d : ℚ)
    (ha : ∃ p ∈ pts, p.x = a) (hb : ∃ p ∈ pts, p.x = b)
    (hc : ∃ p ∈ pts, p.y = c) (hd : ∃ p ∈ pts, p.y = d)
    (hall : ∀ p ∈ pts, a ≤ p.x ∧ p.x ≤ b ∧ c ≤ p.y ∧ p.y ≤ d) : IsBBox pts a b c d := by
  refine ⟨⟨ha, ?_⟩, ⟨hb, ?_⟩, ⟨hc, ?_⟩, ⟨hd, ?_⟩⟩
  · rintro v ⟨p, hp, rfl⟩; exact (hall p hp).1
  · rintro v ⟨p, hp, rfl⟩; exact (hall p hp).2.1
  · rintro v ⟨p, hp, rfl⟩; exact (hall p hp).2.2.1
  · rintro v ⟨p, hp, rfl⟩; exact (hall p hp).2.2.2

theorem valid_faceOf (f : Nat → Keypoint) :
    ∀ i ∈ rightEyeIndices ++ leftEyeIndices, i < (faceOf f).length := by
  simp [faceOf, rightEyeIndices, leftEyeIndices]

theorem symmetricFace_right : IsBBox (eyeRegion symmetricFace rightEyeIndices) 90 110 95 105 := by
  have e : eyeRegion symmetricFace rightEyeIndices =
      [⟨90, 100⟩, ⟨100, 95⟩, ⟨100, 100⟩, ⟨100, 100⟩, ⟨100, 105⟩, ⟨100, 100⟩, ⟨100, 100⟩,
        ⟨100, 100⟩, ⟨110, 100⟩] := by
    simp [eyeRegion, symmetricFace, faceOf, rightEyeIndices, leftEyeIndices,
      List.getElem?_range]
  rw [e]
  apply isBBox_of_bounds <;> norm_num

theorem symmetricFace_left : IsBBox (eyeRegion symmetricFace leftEyeIndices) 190 210 95 105 := by
  have e : eyeRegion symmetricFace leftEyeIndices =
      [⟨210, 100⟩, ⟨200, 95⟩, ⟨200, 100⟩, ⟨200, 100⟩, ⟨200, 105⟩, ⟨200, 100⟩, ⟨200, 100⟩,
        ⟨200, 100⟩, ⟨190, 100⟩] := by
    simp [eyeRegion, symmetricFace, faceOf, rightEyeIndices, leftEyeIndices,
      List.getElem?_range]
  rw [e]
  apply isBBox_of_bounds <;> norm_num

/-! ## Claims -/

/-- C2. On every keypoint array in which all 18 eye indices are positions, `drawEyeCensor`
draws a bar whose width is the width of the bounding box of all 18 selected points plus 40,
and whose height is the larger of the two per-eye bounding-box heights plus 20. -/
theorem barWidth_barHeight_padding {A : Type} (atan2 : JSNum → JSNum → A)
    (kp : List Keypoint) (hvalid : ∀ i ∈ rightEyeIndices ++ leftEyeIndices, i < kp.length) :
    ∃ (g : Geometry A) (x0 x1 y0 y1 rx0 rx1 ry0 ry1 lx0 lx1 ly0 ly1 : ℚ),
      censorGeometry atan2 kp rightEyeIndices leftEyeIndices = .ok g ∧
      drawEyeCensor atan2 kp rightEyeIndices leftEyeIndices =
        { ops := render g, error := none } ∧
      (eyeRegion kp rightEyeIndices).length = 9 ∧ (eyeRegion kp leftEyeIndices).length = 9 ∧
      IsBBox (eyeRegion kp rightEyeIndices ++ eyeRegion kp leftEyeIndices) x0 x1 y0 y1 ∧
      IsBBox (eyeRegion kp rightEyeIndices) rx0 rx1 ry0 ry1 ∧
      IsBBox (eyeRegion kp leftEyeIndices) lx0 lx1 ly0 ly1 ∧
      g.barWidth = .fin (x1 - x0 + 40) ∧
      g.barHeight = .fin (max (ry1 - ry0) (ly1 - ly0) + 20) := by
  obtain ⟨rx0, rx1, ry0, ry1, lx0, lx1, ly0, ly1, hr, hl⟩ := exists_eye_bboxes kp hvalid
  have hg := censorGeometry_of_bbox atan2 kp _ _ hvalid hr hl
  refine ⟨_, min rx0 lx0, max rx1 lx1, min ry0 ly0, max ry1 ly1, rx0, rx1, ry0, ry1,
    lx0, lx1, ly0, ly1, hg, drawEyeCensor_of_ok atan2 kp _ _ _ hg, ?_, ?_, hr.append hl,
    hr, hl, rfl, rfl⟩
  · exact eyeRegion_length kp _ (fun i hi => hvalid i (by simp [hi]))
  · exact eyeRegion_length kp _ (fun i hi => hvalid i (by simp [hi]))

/-- Witness of C2 on the level synthetic face. -/
theorem barWidth_barHeight_padding_witness :
    ∃ (g : Geometry ℚ) (x0 x1 y0 y1 rx0 rx1 ry0 ry1 lx0 lx1 ly0 ly1 : ℚ),
      censorGeometry (fun _ _ => (0 : ℚ)) symmetricFace rightEyeIndices leftEyeIndices
        = .ok g ∧
      drawEyeCensor (fun _ _ => (0 : ℚ)) symmetricFace rightEyeIndices leftEyeIndices =
        { ops := render g, error := none } ∧
      (eyeRegion symmetricFace rightEyeIndices).length = 9 ∧
      (eyeRegion symmetricFace leftEyeIndices).length = 9 ∧
      IsBBox (eyeRegion symmetricFace rightEyeIndices ++ eyeRegion symmetricFace leftEyeIndices)
        x0 x1 y0 y1 ∧
      IsBBox (eyeRegion symmetricFace rightEyeIndices) rx0 rx1 ry0 ry1 ∧
      IsBBox (eyeRegion symmetricFace leftEyeIndices) lx0 lx1 ly0 ly1 ∧
      g.barWidth = .fin (x1 - x0 + 40) ∧
      g.barHeight = .fin (max (ry1 - ry0) (ly1 - ly0) + 20) :=
  barWidth_barHeight_padding (fun _ _ => (0 : ℚ)) symmetricFace (valid_faceOf _)

theorem arg_of_horizontal (d : ℚ) :
    (0 ≤ d → Complex.arg ⟨(d : ℝ), ((0 : ℚ) : ℝ)⟩ = 0) ∧
    (d < 0 → Complex.arg ⟨(d : ℝ), ((0 : ℚ) : ℝ)⟩ = Real.pi) := by
  have e : (⟨(d : ℝ), ((0 : ℚ) : ℝ)⟩ : ℂ) = ((d : ℝ) : ℂ) := by
    apply Complex.ext <;> simp
  rw [e]
  constructor
  · intro h
    exact Complex.arg_ofReal_of_nonneg (by exact_mod_cast h)
  · intro h
    exact Complex.arg_ofReal_of_neg (by exact_mod_cast h)

/-- C3. On every valid keypoint array the rotation angle is
`atan2(leftCenter.y - rightCenter.y, leftCenter.x - rightCenter.x)`, each centre being the
midpoint of that eye's own bounding box; when the two centres have the same `y` the angle is
`0` if `leftCenter.x ≥ rightCenter.x` and `π` if `leftCenter.x < rightCenter.x`. -/
theorem angle_from_eye_centers (atan2 : JSNum → JSNum → ℝ) (hatan : RealAtan2 atan2)
    (kp : List Keypoint) (hvalid : ∀ i ∈ rightEyeIndices ++ leftEyeIndices, i < kp.length) :
    ∃ (g : Geometry ℝ) (rx0 rx1 ry0 ry1 lx0 lx1 ly0 ly1 : ℚ),
      censorGeometry atan2 kp rightEyeIndices leftEyeIndices = .ok g ∧
      drawEyeCensor atan2 kp rightEyeIndices leftEyeIndices =
        { ops := render g, error := none } ∧
      IsBBox (eyeRegion kp rightEyeIndices) rx0 rx1 ry0 ry1 ∧
      IsBBox (eyeRegion kp leftEyeIndices) lx0 lx1 ly0 ly1 ∧
      g.rightEyeCenter = (.fin ((rx0 + rx1) / 2), .fin ((ry0 + ry1) / 2)) ∧
      g.leftEyeCenter = (.fin ((lx0 + lx1) / 2), .fin ((ly0 + ly1) / 2)) ∧
      g.angle = atan2 (.fin ((ly0 + ly1) / 2 - (ry0 + ry1) / 2))
        (.fin ((lx0 + lx1) / 2 - (rx0 + rx1) / 2)) ∧
      g.angle = Complex.arg ⟨(((lx0 + lx1) / 2 - (rx0 + rx1) / 2 : ℚ) : ℝ),
        (((ly0 + ly1) / 2 - (ry0 + ry1) / 2 : ℚ) : ℝ)⟩ ∧
      ((ly0 + ly1) / 2 = (ry0 + ry1) / 2 →
        ((rx0 + rx1) / 2 ≤ (lx0 + lx1) / 2 → g.angle = 0) ∧
        ((lx0 + lx1) / 2 < (rx0 + rx1) / 2 → g.angle = Real.pi)) := by
  obtain ⟨rx0, rx1, ry0, ry1, lx0, lx1, ly0, ly1, hr, hl⟩ := exists_eye_bboxes kp hvalid
  have hg := censorGeometry_of_bbox atan2 kp _ _ hvalid hr hl
  refine ⟨_, rx0, rx1, ry0, ry1, lx0, lx1, ly0, ly1, hg,
    drawEyeCensor_of_ok atan2 kp _ _ _ hg, hr, hl, rfl, rfl, rfl, hatan _ _, ?_⟩
  intro hy
  have e : (ly0 + ly1) / 2 - (ry0 + ry1) / 2 = 0 := by rw [hy]; ring
  constructor
  · intro hx
    show atan2 (.fin ((ly0 + ly1) / 2 - (ry0 + ry1) / 2))
      (.fin ((lx0 + lx1) / 2 - (rx0 + rx1) / 2)) = 0
    rw [e, hatan]
    exact (arg_of_horizontal ((lx0 + lx1) / 2 - (rx0 + rx1) / 2)).1 (by linarith)
  · intro hx
    show atan2 (.fin ((ly0 + ly1) / 2 - (ry0 + ry1) / 2))
      (.fin ((lx0 + lx1) / 2 - (rx0 + rx1) / 2)) = Real.pi
    rw [e, hatan]
    exact (arg_of_horizontal ((lx0 + lx1) / 2 - (rx0 + rx1) / 2)).2 (by linarith)

theorem realAtan2_liftFinite :
    RealAtan2 (liftFinite (fun y x => Complex.arg ⟨(x : ℝ), (y : ℝ)⟩) 0) :=
  fun _ _ => rfl

/-- Witness of C3 on the level synthetic face. -/
theorem angle_from_eye_centers_witness :
    RealAtan2 (liftFinite (fun y x => Complex.arg ⟨(x : ℝ), (y : ℝ)⟩) 0) ∧
    (∀ i ∈ rightEyeIndices ++ leftEyeIndices, i < symmetricFace.length) ∧
    ∃ (g : Geometry ℝ) (rx0 rx1 ry0 ry1 lx0 lx1 ly0 ly1 : ℚ),
      censorGeometry (liftFinite (fun y x => Complex.arg ⟨(x : ℝ), (y : ℝ)⟩) 0) symmetricFace
        rightEyeIndices leftEyeIndices = .ok g ∧
      drawEyeCensor (liftFinite (fun y x => Complex.arg ⟨(x : ℝ), (y : ℝ)⟩) 0) symmetricFace
        rightEyeIndices leftEyeIndices = { ops := render g, error := none } ∧
      IsBBox (eyeRegion symmetricFace rightEyeIndices) rx0 rx1 ry0 ry1 ∧
      IsBBox (eyeRegion symmetricFace leftEyeIndices) lx0 lx1 ly0 ly1 ∧
      g.rightEyeCenter = (.fin ((rx0 + rx1) / 2), .fin ((ry0 + ry1) / 2)) ∧
      g.leftEyeCenter = (.fin ((lx0 + lx1) / 2), .fin ((ly0 + ly1) / 2)) ∧
      g.angle = liftFinite (fun y x => Complex.arg ⟨(x : ℝ), (y : ℝ)⟩) 0
        (.fin ((ly0 + ly1) / 2 - (ry0 + ry1) / 2))
        (.fin ((lx0 + lx1) / 2 - (rx0 + rx1) / 2)) ∧
      g.angle = Complex.arg ⟨(((lx0 + lx1) / 2 - (rx0 + rx1) / 2 : ℚ) : ℝ),
        (((ly0 + ly1) / 2 - (ry0 + ry1) / 2 : ℚ) : ℝ)⟩ ∧
      ((ly0 + ly1) / 2 = (ry0 + ry1) / 2 →
        ((rx0 + rx1) / 2 ≤ (lx0 + lx1) / 2 → g.angle = 0) ∧
        ((lx0 + lx1) / 2 < (rx0 + rx1) / 2 → g.angle = Real.pi)) :=
  ⟨realAtan2_liftFinite, valid_faceOf _,
    angle_from_eye_centers _ realAtan2_liftFinite symmetricFace (valid_faceOf _)⟩

theorem unevenFace_right : IsBBox (eyeRegion unevenFace rightEyeIndices) 90 110 95 105 := by
  have e : eyeRegion unevenFace rightEyeIndices =
      [⟨90, 100⟩, ⟨100, 95⟩, ⟨100, 100⟩, ⟨100, 100⟩, ⟨100, 105⟩, ⟨100, 100⟩, ⟨100, 100⟩,
        ⟨100, 100⟩, ⟨110, 100⟩] := by
    simp [eyeRegion, unevenFace, faceOf, rightEyeIndices, leftEyeIndices,
      List.getElem?_range]
  rw [e]
  apply isBBox_of_bounds <;> norm_num

theorem unevenFace_left : IsBBox (eyeRegion unevenFace leftEyeIndices) 190 210 95 125 := by
  have e : eyeRegion unevenFace leftEyeIndices =
      [⟨210, 110⟩, ⟨200, 95⟩, ⟨200, 110⟩, ⟨200, 110⟩, ⟨200, 125⟩, ⟨200, 110⟩, ⟨200, 110⟩,
        ⟨200, 110⟩, ⟨190, 110⟩] := by
    simp [eyeRegion, unevenFace, faceOf, rightEyeIndices, leftEyeIndices,
      List.getElem?_range]
  rw [e]
  apply isBBox_of_bounds <;> norm_num

/-- C4. On every valid keypoint array the bar centre is the midpoint of the bounding box of
all 18 selected points; and on some valid keypoint array whose eyes have unequal vertical
extents this centre differs from the midpoint of the two eye centres. -/
theorem center_is_combined_bbox_midpoint {A : Type} (atan2 : JSNum → JSNum → A) :
    (∀ kp : List Keypoint, (∀ i ∈ rightEyeIndices ++ leftEyeIndices, i < kp.length) →
      ∃ (g : Geometry A) (x0 x1 y0 y1 : ℚ),
        censorGeometry atan2 kp rightEyeIndices leftEyeIndices = .ok g ∧
        drawEyeCensor atan2 kp rightEyeIndices leftEyeIndices =
          { ops := render g, error := none } ∧
        IsBBox (eyeRegion kp rightEyeIndices ++ eyeRegion kp leftEyeIndices) x0 x1 y0 y1 ∧
        g.centerX = .fin ((x0 + x1) / 2) ∧ g.centerY = .fin ((y0 + y1) / 2)) ∧
    (∃ kp : List Keypoint, (∀ i ∈ rightEyeIndices ++ leftEyeIndices, i < kp.length) ∧
      ∃ (g : Geometry A) (rx0 rx1 ry0 ry1 lx0 lx1 ly0 ly1 rcx rcy lcx lcy : ℚ),
        censorGeometry atan2 kp rightEyeIndices leftEyeIndices = .ok g ∧
        IsBBox (eyeRegion kp rightEyeIndices) rx0 rx1 ry0 ry1 ∧
        IsBBox (eyeRegion kp leftEyeIndices) lx0 lx1 ly0 ly1 ∧
        ry1 - ry0 ≠ ly1 - ly0 ∧
        g.rightEyeCenter = (.fin rcx, .fin rcy) ∧ g.leftEyeCenter = (.fin lcx, .fin lcy) ∧
        (g.centerX, g.centerY) ≠ (JSNum.fin ((rcx + lcx) / 2), JSNum.fin ((rcy + lcy) / 2))) := by
  constructor
  · intro kp hvalid
    obtain ⟨rx0, rx1, ry0, ry1, lx0, lx1, ly0, ly1, hr, hl⟩ := exists_eye_bboxes kp hvalid
    have hg := censorGeometry_of_bbox atan2 kp _ _ hvalid hr hl
    exact ⟨_, min rx0 lx0, max rx1 lx1, min ry0 ly0, max ry1 ly1, hg,
      drawEyeCensor_of_ok atan2 kp _ _ _ hg, hr.append hl, rfl, rfl⟩
  · refine ⟨unevenFace, valid_faceOf _, ?_⟩
    have hg := censorGeometry_of_bbox atan2 unevenFace _ _ (valid_faceOf _)
      unevenFace_right unevenFace_left
    refine ⟨_, 90, 110, 95, 105, 190, 210, 95, 125, _, _, _, _, hg, unevenFace_right,
      unevenFace_left, by norm_num, rfl, rfl, ?_⟩
    intro h
    have h2 := congrArg Prod.snd h
    simp only [JSNum.fin.injEq] at h2
    norm_num at h2

/-- Witness of C4 on the level synthetic face. -/
theorem center_is_combined_bbox_midpoint_witness :
    ∃ (g : Geometry ℚ) (x0 x1 y0 y1 : ℚ),
      censorGeometry (fun _ _ => (0 : ℚ)) symmetricFace rightEyeIndices leftEyeIndices
        = .ok g ∧
      drawEyeCensor (fun _ _ => (0 : ℚ)) symmetricFace rightEyeIndices leftEyeIndices =
        { ops := render g, error := none } ∧
      IsBBox (eyeRegion symmetricFace rightEyeIndices ++ eyeRegion symmetricFace leftEyeIndices)
        x0 x1 y0 y1 ∧
      g.centerX = .fin ((x0 + x1) / 2) ∧ g.centerY = .fin ((y0 + y1) / 2) :=
  (center_is_combined_bbox_midpoint (fun _ _ => (0 : ℚ))).1 symmetricFace (valid_faceOf _)

/-- C5. Whenever some index of either index set is not a position of the keypoint array,
`drawEyeCensor` throws and has issued no operation on the drawing context, so every surface
state is left as it was. -/
theorem out_of_range_draws_nothing {A T P : Type} (atan2 : JSNum → JSNum → A)
    (kp : List Keypoint) (ri li : List Nat) (h : ∃ i ∈ ri ++ li, kp.length ≤ i) :
    drawEyeCensor atan2 kp ri li = { ops := [], error := some .typeError } ∧
    ∀ (sem : SurfaceSem A T P) (c : Ctx T P),
      runOps sem (drawEyeCensor atan2 kp ri li).ops c = c := by
  have e : drawEyeCensor atan2 kp ri li = { ops := [], error := some .typeError } := by
    simp only [drawEyeCensor, censorGeometry, eyeCoords_error kp ri li h]
  refine ⟨e, ?_⟩
  intro sem c
  rw [e]
  rfl

/-- Witness of C5 on a 100-point keypoint array. -/
theorem out_of_range_draws_nothing_witness :
    (∃ i ∈ rightEyeIndices ++ leftEyeIndices, shortFace.length ≤ i) ∧
    drawEyeCensor (fun _ _ => (0 : ℚ)) shortFace rightEyeIndices leftEyeIndices =
      { ops := [], error := some .typeError } ∧
    ∀ (sem : SurfaceSem ℚ Unit Unit) (c : Ctx Unit Unit),
      runOps sem (drawEyeCensor (fun _ _ => (0 : ℚ)) shortFace rightEyeIndices
        leftEyeIndices).ops c = c :=
  ⟨⟨163, by simp [rightEyeIndices, leftEyeIndices], by simp [shortFace]⟩,
    out_of_range_draws_nothing (fun _ _ => (0 : ℚ)) shortFace rightEyeIndices leftEyeIndices
      ⟨163, by simp [rightEyeIndices, leftEyeIndices], by simp [shortFace]⟩⟩

/-- C6. For every surface state and every keypoint array and index sets, the current
drawing state (transform and fill style) and the stack of saved states after
`drawEyeCensor` are those before the call; a run either throws nothing or has issued no
operation. -/
theorem transform_state_restored {A T P : Type} (sem : SurfaceSem A T P)
    (atan2 : JSNum → JSNum → A) (kp : List Keypoint) (ri li : List Nat) (c : Ctx T P) :
    (runOps sem (drawEyeCensor atan2 kp ri li).ops c).cur = c.cur ∧
    (runOps sem (drawEyeCensor atan2 kp ri li).ops c).stack = c.stack ∧
    ((drawEyeCensor atan2 kp ri li).error = none ∨ (drawEyeCensor atan2 kp ri li).ops = []) := by
  unfold drawEyeCensor
  cases censorGeometry atan2 kp ri li with
  | error e => exact ⟨rfl, rfl, Or.inr rfl⟩
  | ok g => exact ⟨rfl, rfl, Or.inl rfl⟩

/-- C7. On every valid keypoint array `drawEyeCensor` issues exactly `save`,
`translate(centerX, centerY)`, `rotate(angle)`, fill style black,
`fillRect(-width/2, -height/2, width, height)`, `restore`; one rectangle is filled, of
positive width and height, spanning `[-width/2, width/2] × [-height/2, height/2]` in the
translated and rotated frame. -/
theorem drawEyeCensor_operations {A : Type} (atan2 : JSNum → JSNum → A)
    (kp : List Keypoint) (hvalid : ∀ i ∈ rightEyeIndices ++ leftEyeIndices, i < kp.length) :
    ∃ (g : Geometry A) (cx cy w h : ℚ),
      censorGeometry atan2 kp rightEyeIndices leftEyeIndices = .ok g ∧
      g.centerX = .fin cx ∧ g.centerY = .fin cy ∧ g.barWidth = .fin w ∧ g.barHeight = .fin h ∧
      drawEyeCensor atan2 kp rightEyeIndices leftEyeIndices =
        { ops := [.save, .translate (.fin cx) (.fin cy), .rotate g.angle,
            .setFillStyle "black", .fillRect (.fin (-w / 2)) (.fin (-h / 2)) (.fin w) (.fin h),
            .restore],
          error := none } ∧
      ((drawEyeCensor atan2 kp rightEyeIndices leftEyeIndices).ops.filter
        CanvasOp.isFillRect).length = 1 ∧
      0 < w ∧ 0 < h ∧ -w / 2 + w = w / 2 ∧ -h / 2 + h = h / 2 := by
  obtain ⟨rx0, rx1, ry0, ry1, lx0, lx1, ly0, ly1, hr, hl⟩ := exists_eye_bboxes kp hvalid
  have hg := censorGeometry_of_bbox atan2 kp _ _ hvalid hr hl
  have hd := drawEyeCensor_of_ok atan2 kp _ _ _ hg
  have hb := (hr.append hl).bounds
  have hrb := hr.bounds
  refine ⟨_, _, _, _, _, hg, rfl, rfl, rfl, rfl, ?_, ?_, ?_, ?_, ?_, ?_⟩
  · rw [hd]; rfl
  · rw [hd]; rfl
  · linarith [hb.1]
  · have : ry1 - ry0 ≤ max (ry1 - ry0) (ly1 - ly0) := le_max_left _ _
    linarith [hrb.2.1]
  · ring
  · ring

/-- Witness of C7 on the level synthetic face. -/
theorem drawEyeCensor_operations_witness :
    ∃ (g : Geometry ℚ) (cx cy w h : ℚ),
      censorGeometry (fun _ _ => (0 : ℚ)) symmetricFace rightEyeIndices leftEyeIndices
        = .ok g ∧
      g.centerX = .fin cx ∧ g.centerY = .fin cy ∧ g.barWidth = .fin w ∧ g.barHeight = .fin h ∧
      drawEyeCensor (fun _ _ => (0 : ℚ)) symmetricFace rightEyeIndices leftEyeIndices =
        { ops := [.save, .translate (.fin cx) (.fin cy), .rotate g.angle,
            .setFillStyle "black", .fillRect (.fin (-w / 2)) (.fin (-h / 2)) (.fin w) (.fin h),
            .restore],
          error := none } ∧
      ((drawEyeCensor (fun _ _ => (0 : ℚ)) symmetricFace rightEyeIndices leftEyeIndices).ops.filter
        CanvasOp.isFillRect).length = 1 ∧
      0 < w ∧ 0 < h ∧ -w / 2 + w = w / 2 ∧ -h / 2 + h = h / 2 :=
  drawEyeCensor_operations (fun _ _ => (0 : ℚ)) symmetricFace (valid_faceOf _)

/-- C8. When the right eye's selected points have bounding box `[90,110] × [95,105]` and the
left eye's have `[190,210] × [95,105]`, the angle is `0`, the combined bounding box is
`[90,210] × [95,105]`, the width is `160`, the height `30` and the centre `(150,100)`. -/
theorem concrete_scenario (atan2 : JSNum → JSNum → ℝ) (hatan : RealAtan2 atan2)
    (kp : List Keypoint) (hvalid : ∀ i ∈ rightEyeIndices ++ leftEyeIndices, i < kp.length)
    (hr : IsBBox (eyeRegion kp rightEyeIndices) 90 110 95 105)
    (hl : IsBBox (eyeRegion kp leftEyeIndices) 190 210 95 105) :
    ∃ g : Geometry ℝ,
      censorGeometry atan2 kp rightEyeIndices leftEyeIndices = .ok g ∧
      drawEyeCensor atan2 kp rightEyeIndices leftEyeIndices =
        { ops := render g, error := none } ∧
      g.angle = 0 ∧
      IsBBox (eyeRegion kp rightEyeIndices ++ eyeRegion kp leftEyeIndices) 90 210 95 105 ∧
      g.minX = .fin 90 ∧ g.maxX = .fin 210 ∧ g.minY = .fin 95 ∧ g.maxY = .fin 105 ∧
      g.barWidth = .fin 160 ∧ g.barHeight = .fin 30 ∧
      g.centerX = .fin 150 ∧ g.centerY = .fin 100 := by
  have hg := censorGeometry_of_bbox atan2 kp _ _ hvalid hr hl
  have ha := hr.append hl
  refine ⟨_, hg, drawEyeCensor_of_ok atan2 kp _ _ _ hg, ?_, ?_, ?_, ?_, ?_, ?_, ?_, ?_, ?_, ?_⟩
  · show atan2 (.fin ((95 + 105) / 2 - (95 + 105) / 2))
      (.fin ((190 + 210) / 2 - (90 + 110) / 2)) = 0
    have e : ((95 : ℚ) + 105) / 2 - (95 + 105) / 2 = 0 := by norm_num
    rw [e, hatan]
    exact (arg_of_horizontal _).1 (by norm_num)
  · have e1 : min (90 : ℚ) 190 = 90 := by norm_num
    have e2 : max (110 : ℚ) 210 = 210 := by norm_num
    have e3 : min (95 : ℚ) 95 = 95 := by norm_num
    have e4 : max (105 : ℚ) 105 = 105 := by norm_num
    rw [e1, e2, e3, e4] at ha
    exact ha
  all_goals
    show JSNum.fin _ = JSNum.fin _
    norm_num

/-- Witness of C8 on the level synthetic face. -/
theorem concrete_scenario_witness :
    ∃ g : Geometry ℝ,
      censorGeometry (liftFinite (fun y x => Complex.arg ⟨(x : ℝ), (y : ℝ)⟩) 0) symmetricFace
        rightEyeIndices leftEyeIndices = .ok g ∧
      drawEyeCensor (liftFinite (fun y x => Complex.arg ⟨(x : ℝ), (y : ℝ)⟩) 0) symmetricFace
        rightEyeIndices leftEyeIndices = { ops := render g, error := none } ∧
      g.angle = 0 ∧
      IsBBox (eyeRegion symmetricFace rightEyeIndices ++ eyeRegion symmetricFace leftEyeIndices)
        90 210 95 105 ∧
      g.minX = .fin 90 ∧ g.maxX = .fin 210 ∧ g.minY = .fin 95 ∧ g.maxY = .fin 105 ∧
      g.barWidth = .fin 160 ∧ g.barHeight = .fin 30 ∧
      g.centerX = .fin 150 ∧ g.centerY = .fin 100 :=
  concrete_scenario _ realAtan2_liftFinite symmetricFace (valid_faceOf _)
    symmetricFace_right symmetricFace_left

/-- C9. The index sets passed by `processImage` are `[33,7,163,144,145,153,154,155,133]`
and `[263,249,390,373,374,380,381,382,362]`: nine pairwise distinct indices each, disjoint,
with largest index 390; on every keypoint array of length at least 391 every lookup
succeeds and no exception is thrown. -/
theorem eye_indices_within_detector_output {A : Type} (atan2 : JSNum → JSNum → A)
    (kp : List Keypoint) (rest : List (List Keypoint)) (hlen : 391 ≤ kp.length) :
    processImage atan2 (kp :: rest) =
      drawEyeCensor atan2 kp [33, 7, 163, 144, 145, 153, 154, 155, 133]
        [263, 249, 390, 373, 374, 380, 381, 382, 362] ∧
    rightEyeIndices.length = 9 ∧ leftEyeIndices.length = 9 ∧
    rightEyeIndices.Nodup ∧ leftEyeIndices.Nodup ∧
    List.Disjoint rightEyeIndices leftEyeIndices ∧
    390 ∈ rightEyeIndices ++ leftEyeIndices ∧
    (∀ i ∈ rightEyeIndices ++ leftEyeIndices, i ≤ 390) ∧
    (∀ i ∈ rightEyeIndices ++ leftEyeIndices, ∃ p, kp[i]? = some p) ∧
    (∃ g, censorGeometry atan2 kp rightEyeIndices leftEyeIndices = .ok g) ∧
    (drawEyeCensor atan2 kp rightEyeIndices leftEyeIndices).error = none ∧
    (processImage atan2 (kp :: rest)).error = none := by
  have hmax : ∀ i ∈ rightEyeIndices ++ leftEyeIndices, i ≤ 390 := by
    simp [rightEyeIndices, leftEyeIndices]
  have hvalid : ∀ i ∈ rightEyeIndices ++ leftEyeIndices, i < kp.length :=
    fun i hi => lt_of_le_of_lt (hmax i hi) hlen
  obtain ⟨rx0, rx1, ry0, ry1, lx0, lx1, ly0, ly1, hr, hl⟩ := exists_eye_bboxes kp hvalid
  have hg := censorGeometry_of_bbox atan2 kp _ _ hvalid hr hl
  have hd := drawEyeCensor_of_ok atan2 kp _ _ _ hg
  refine ⟨rfl, rfl, rfl, by decide, by decide, ?_, by decide, hmax, ?_, ⟨_, hg⟩, ?_, ?_⟩
  · simp [List.Disjoint, rightEyeIndices, leftEyeIndices]
  · intro i hi
    exact ⟨kp.get ⟨i, hvalid i hi⟩, List.getElem?_eq_getElem (hvalid i hi)⟩
  · rw [hd]
  · show (drawEyeCensor atan2 kp rightEyeIndices leftEyeIndices).error = none
    rw [hd]

/-- Witness of C9 on the level synthetic face, a 478-point detector output. -/
theorem eye_indices_within_detector_output_witness :
    391 ≤ symmetricFace.length ∧
    processImage (fun _ _ => (0 : ℚ)) [symmetricFace] =
      drawEyeCensor (fun _ _ => (0 : ℚ)) symmetricFace [33, 7, 163, 144, 145, 153, 154, 155, 133]
        [263, 249, 390, 373, 374, 380, 381, 382, 362] ∧
    rightEyeIndices.length = 9 ∧ leftEyeIndices.length = 9 ∧
    rightEyeIndices.Nodup ∧ leftEyeIndices.Nodup ∧
    List.Disjoint rightEyeIndices leftEyeIndices ∧
    390 ∈ rightEyeIndices ++ leftEyeIndices ∧
    (∀ i ∈ rightEyeIndices ++ leftEyeIndices, i ≤ 390) ∧
    (∀ i ∈ rightEyeIndices ++ leftEyeIndices, ∃ p, symmetricFace[i]? = some p) ∧
    (∃ g, censorGeometry (fun _ _ => (0 : ℚ)) symmetricFace rightEyeIndices leftEyeIndices
      = .ok g) ∧
    (drawEyeCensor (fun _ _ => (0 : ℚ)) symmetricFace rightEyeIndices leftEyeIndices).error
      = none ∧
    (processImage (fun _ _ => (0 : ℚ)) [symmetricFace]).error = none :=
  ⟨by simp [symmetricFace, faceOf],
    eye_indices_within_detector_output (fun _ _ => (0 : ℚ)) symmetricFace []
      (by simp [symmetricFace, faceOf])⟩

theorem tiltedFace_right : IsBBox (eyeRegion tiltedFace rightEyeIndices) 260 340 270 330 := by
  have e : eyeRegion tiltedFace rightEyeIndices =
      [⟨260, 270⟩, ⟨300, 300⟩, ⟨300, 300⟩, ⟨300, 300⟩, ⟨300, 300⟩, ⟨300, 300⟩, ⟨300, 300⟩,
        ⟨300, 300⟩, ⟨340, 330⟩] := by
    simp [eyeRegion, tiltedFace, faceOf, rightEyeIndices, leftEyeIndices,
      List.getElem?_range]
  rw [e]
  apply isBBox_of_bounds <;> norm_num

theorem tiltedFace_left : IsBBox (eyeRegion tiltedFace leftEyeIndices) 460 540 420 480 := by
  have e : eyeRegion tiltedFace leftEyeIndices =
      [⟨540, 480⟩, ⟨500, 450⟩, ⟨500, 450⟩, ⟨500, 450⟩, ⟨500, 450⟩, ⟨500, 450⟩, ⟨500, 450⟩,
        ⟨500, 450⟩, ⟨460, 420⟩] := by
    simp [eyeRegion, tiltedFace, faceOf, rightEyeIndices, leftEyeIndices,
      List.getElem?_range]
  rw [e]
  apply isBBox_of_bounds <;> norm_num

theorem tiltedFace_outer_corner : (⟨260, 270⟩ : Keypoint) ∈ eyeRegion tiltedFace rightEyeIndices := by
  simp [eyeRegion, tiltedFace, faceOf, rightEyeIndices, leftEyeIndices, List.getElem?_range]

/-- Cosine and sine of the direction of `(dx, dy)` when its length is `r`. -/
theorem cos_sin_arg (dx dy r : ℝ) (hr : 0 < r) (h : dx * dx + dy * dy = r * r) :
    Real.cos (Complex.arg ⟨dx, dy⟩) = dx / r ∧ Real.sin (Complex.arg ⟨dx, dy⟩) = dy / r := by
  have habs : Complex.abs ⟨dx, dy⟩ = r := by
    rw [Complex.abs_apply, Complex.normSq_mk, h, Real.sqrt_mul_self hr.le]
  have hne : (⟨dx, dy⟩ : ℂ) ≠ 0 := by
    intro h0
    rw [h0, map_zero] at habs
    exact hr.ne habs
  constructor
  · rw [Complex.cos_arg hne, habs]
  · rw [Complex.sin_arg, habs]

/-- C1 (failing input). On the tilted face the bar is centred at `(400, 375)` and is `320`
wide and `80` high; the outer corner `(260, 270)` of the right eye has local `x = -175`,
beyond the bar's end at `-160`. -/
theorem tilted_face_not_contained :
    ∃ g : Geometry ℝ,
      censorGeometry (liftFinite (fun y x => Complex.arg ⟨(x : ℝ), (y : ℝ)⟩) 0) tiltedFace
        rightEyeIndices leftEyeIndices = .ok g ∧
      drawEyeCensor (liftFinite (fun y x => Complex.arg ⟨(x : ℝ), (y : ℝ)⟩) 0) tiltedFace
        rightEyeIndices leftEyeIndices = { ops := render g, error := none } ∧
      g.centerX = .fin 400 ∧ g.centerY = .fin 375 ∧
      g.barWidth = .fin 320 ∧ g.barHeight = .fin 80 ∧
      (⟨260, 270⟩ : Keypoint) ∈ eyeRegion tiltedFace rightEyeIndices ∧
      (toLocal (Real.cos g.angle) (Real.sin g.angle) (400 : ℝ) 375 260 270).1 = -175 ∧
      ¬ (-((320 : ℝ) / 2) ≤
        (toLocal (Real.cos g.angle) (Real.sin g.angle) (400 : ℝ) 375 260 270).1) := by
  have hg := censorGeometry_of_bbox (liftFinite (fun y x => Complex.arg ⟨(x : ℝ), (y : ℝ)⟩) 0)
    tiltedFace _ _ (valid_faceOf _) tiltedFace_right tiltedFace_left
  have hcs := cos_sin_arg 200 150 250 (by norm_num) (by norm_num)
  have hloc : (toLocal
      (Real.cos (Complex.arg ⟨(((460 + 540) / 2 - (260 + 340) / 2 : ℚ) : ℝ),
        (((420 + 480) / 2 - (270 + 330) / 2 : ℚ) : ℝ)⟩))
      (Real.sin (Complex.arg ⟨(((460 + 540) / 2 - (260 + 340) / 2 : ℚ) : ℝ),
        (((420 + 480) / 2 - (270 + 330) / 2 : ℚ) : ℝ)⟩))
      (400 : ℝ) 375 260 270).1 = -175 := by
    have e1 : (((460 + 540) / 2 - (260 + 340) / 2 : ℚ) : ℝ) = 200 := by norm_num
    have e2 : (((420 + 480) / 2 - (270 + 330) / 2 : ℚ) : ℝ) = 150 := by norm_num
    rw [e1, e2, hcs.1, hcs.2]
    simp only [toLocal]
    norm_num
  refine ⟨_, hg, drawEyeCensor_of_ok _ tiltedFace _ _ _ hg, ?_, ?_, ?_, ?_,
    tiltedFace_outer_corner, hloc, ?_⟩
  · show JSNum.fin _ = JSNum.fin _
    norm_num
  · show JSNum.fin _ = JSNum.fin _
    norm_num
  · show JSNum.fin _ = JSNum.fin _
    norm_num
  · show JSNum.fin _ = JSNum.fin _
    norm_num
  · intro hle
    have hle2 : -((320 : ℝ) / 2) ≤ -175 := hloc ▸ hle
    norm_num at hle2

end EyeCensor
